import Mathlib

/-! Shallow embedding of `src/server.js` (GrooveBox public music-room server).

The server keeps three pieces of in-memory state:
`this.rooms : Map roomCode -> roomData`, `this.userSockets : Map socketId -> userData`
and `this.roomCodes : Set string`.  JavaScript `Map`s are embedded as insertion-ordered
association lists (`mapGet` / `mapSet` / `mapDelete` mirror `Map.get` / `Map.set` /
`Map.delete`; `Map.set` replaces in place, so insertion order is preserved), and the
`Set` of room codes as a list with `Set.add` appending a fresh element and
`Set.delete` filtering it out.

Each `socket.on(...)` handler of `setupSocketHandlers` becomes a pure function
`ServerState -> payload -> ServerState × List Emit`, where `Emit` records the outbound
`emit` calls together with their audience (`socket.emit` = sender only, `io.to(code)` =
the socket room, `socket.to(code)` = the socket room minus the sender).
`Math.random()`-driven room-code generation is embedded by passing the stream of
candidate draws (each draw a function `Fin 6 → Fin 36` of character indices) into the
create handler; the `do … while` retry loop becomes a first-fresh search over that
stream.  Fields used only for logging or by the HTTP layer (`ip`, `socketId`,
`createdAt`, `hostIP`, upload metadata) are omitted: no socket handler branches on them.
-/

namespace GrooveBox

/-- A playlist entry.  The handlers test only the `_id` field (`song._id`); `title`
stands for the remaining opaque display metadata, so two distinct tracks can share
an id. -/
structure Track where
  _id : String
  title : String
  deriving DecidableEq

/-- A participant record as stored in `room.participants` (logging-only fields
omitted). -/
structure UserData where
  id : String
  displayName : String
  isHost : Bool
  deriving DecidableEq

/-- A `this.userSockets` entry: `{ roomCode, ...userData }`. -/
structure SessionData where
  roomCode : String
  id : String
  displayName : String
  isHost : Bool
  deriving DecidableEq

/-- `room.settings`. -/
structure Settings where
  playbackMode : String
  syncControl : String
  deriving DecidableEq

/-- A client-supplied settings patch for `update-room-settings`; a `none` field is a
key absent from the payload object, so the spread `{...room.settings, ...settings}`
keeps the old value. -/
structure SettingsPatch where
  playbackMode : Option String
  syncControl : Option String
  deriving DecidableEq

/-- A room (`roomData`), minus logging-only fields. -/
structure Room where
  code : String
  name : String
  description : String
  playlist : List Track
  settings : Settings
  participants : List (String × UserData)
  participantCount : Nat
  hostId : String
  deriving DecidableEq

/-- The room object sent in `room-created` / `room-joined` payloads. -/
structure RoomSnapshot where
  code : String
  name : String
  description : String
  playlist : List Track
  settings : Settings
  participants : List UserData
  deriving DecidableEq

/-- The whole mutable state of `PublicMusicRoomServer`. -/
structure ServerState where
  rooms : List (String × Room)
  userSockets : List (String × SessionData)
  roomCodes : List String
  deriving DecidableEq

/-- `new PublicMusicRoomServer()`: all three containers empty. -/
def initialState : ServerState :=
  { rooms := [], userSockets := [], roomCodes := [] }

/-- `Map.get`. -/
def mapGet {β : Type} (m : List (String × β)) (k : String) : Option β :=
  match m with
  | [] => none
  | (k', v) :: rest => if k' = k then some v else mapGet rest k

/-- `Map.set`: replace in place when the key is present, append otherwise. -/
def mapSet {β : Type} (m : List (String × β)) (k : String) (v : β) : List (String × β) :=
  match m with
  | [] => [(k, v)]
  | (k', v') :: rest => if k' = k then (k, v) :: rest else (k', v') :: mapSet rest k v

/-- `Map.delete`: drop the (unique) entry for the key. -/
def mapDelete {β : Type} (m : List (String × β)) (k : String) : List (String × β) :=
  match m with
  | [] => []
  | (k', v') :: rest => if k' = k then rest else (k', v') :: mapDelete rest k

/-- The keys of an embedded `Map`, in insertion order. -/
def keys {β : Type} (m : List (String × β)) : List String :=
  m.map Prod.fst

/-- JavaScript `s || d` for a possibly-missing string: `undefined` and `''` are
falsy. -/
def jsOr (o : Option String) (d : String) : String :=
  match o with
  | none => d
  | some s => if s = "" then d else s

/-- The audience of one outbound `emit`. -/
inductive Audience where
  | sender (sid : String)
  | room (code : String)
  | roomExceptSender (code sid : String)
  deriving DecidableEq

/-- One outbound `emit` call, with its payload fields. -/
inductive Emit where
  | joinError (sid message : String)
  | participantJoined (code : String) (participant : UserData) (participantCount : Nat)
  | roomJoined (sid : String) (room : RoomSnapshot) (user : UserData)
  | roomCreated (sid : String) (room : RoomSnapshot) (user : UserData)
  | errorMsg (sid message : String)
  | roomSettingsUpdated (code : String) (settings : Settings)
  | playlistUpdatedAdded (code : String) (playlist : List Track) (addedBy : String)
  | playlistUpdatedRemoved (code : String) (playlist : List Track) (removedBy : String)
  | syncPlaybackCommand (code sid action songId : String) (currentTime : Int)
      (isPlaying : Bool) (controlledBy : String)
  | chatMessage (code displayName message : String)
  | roomClosed (code message : String)
  | participantLeft (code participantId : String) (participantCount : Nat)
  deriving DecidableEq

/-- Which channel each handler sends a given event on. -/
def audienceOf : Emit → Audience
  | .joinError sid _ => .sender sid
  | .participantJoined code _ _ => .room code
  | .roomJoined sid _ _ => .sender sid
  | .roomCreated sid _ _ => .sender sid
  | .errorMsg sid _ => .sender sid
  | .roomSettingsUpdated code _ => .room code
  | .playlistUpdatedAdded code _ _ => .room code
  | .playlistUpdatedRemoved code _ _ => .room code
  | .syncPlaybackCommand code sid _ _ _ _ _ => .roomExceptSender code sid
  | .chatMessage code _ _ => .room code
  | .roomClosed code _ => .room code
  | .participantLeft code _ _ => .room code

/-- The alphabet of `generateRoomCode`. -/
def chars : String :=
  "ABCDEFGHIJKLMNOPQRSTUVWXYZ0123456789"

/-- One candidate code: six draws of `Math.floor(Math.random() * chars.length)`,
each mapped through `chars.charAt`. -/
def codeOfFn (f : Fin 6 → Fin 36) : String :=
  String.mk ((List.ofFn f).map (fun i => chars.data.getD i.val 'A'))

/-- `generateRoomCode` minus the mutation of `this.roomCodes`: the `do … while`
loop keeps drawing until the candidate is not in the reserved set, so it returns
the first fresh candidate of the draw stream (`none` if the finite stream passed
to the model is exhausted, in which case the create handler below stutters —
the real loop would just keep drawing). -/
def generateRoomCode (attempts : List (Fin 6 → Fin 36)) (reserved : List String) :
    Option String :=
  (attempts.map codeOfFn).find? (fun c => ! reserved.contains c)

/-- The room object sent back to clients on create / join. -/
def snapshotOf (room : Room) : RoomSnapshot :=
  { code := room.code
    name := room.name
    description := room.description
    playlist := room.playlist
    settings := room.settings
    participants := room.participants.map Prod.snd }

/-- The `hostData` object of the create handler. -/
def hostData (sid : String) : UserData :=
  { id := sid, displayName := "Host", isHost := true }

/-- The `room` object the create handler constructs. -/
def createdRoom (sid : String) (name description : Option String)
    (initialPlaylist : Option (List Track)) (roomCode : String) : Room :=
  { code := roomCode
    name := jsOr name "Music Room"
    description := jsOr description ""
    playlist := initialPlaylist.getD []
    settings := { playbackMode := "individual", syncControl := "host-only" }
    participants := mapSet [] sid (hostData sid)
    participantCount := 1
    hostId := sid }

/-- `socket.on('create-room', ...)`. -/
def handleCreateRoom (st : ServerState) (sid : String) (name description : Option String)
    (initialPlaylist : Option (List Track)) (attempts : List (Fin 6 → Fin 36)) :
    ServerState × List Emit :=
  match generateRoomCode attempts st.roomCodes with
  | none => (st, [])
  | some roomCode =>
    let room : Room := createdRoom sid name description initialPlaylist roomCode
    ({ st with
        roomCodes := st.roomCodes ++ [roomCode]
        rooms := mapSet st.rooms roomCode room
        userSockets := mapSet st.userSockets sid
          { roomCode := roomCode, id := sid, displayName := "Host", isHost := true } },
     [Emit.roomCreated sid (snapshotOf room) (hostData sid)])

/-- The `userData` object of the join handler. -/
def joinUserData (sid : String) (displayName : Option String) : UserData :=
  { id := sid, displayName := jsOr displayName "Anonymous", isHost := false }

/-- A room after `room.participants.set(socket.id, userData)` and the
`participantCount` refresh of the join handler. -/
def roomWithParticipant (room : Room) (sid : String) (u : UserData) : Room :=
  { room with
    participants := mapSet room.participants sid u
    participantCount := (mapSet room.participants sid u).length }

/-- `socket.on('join-room', ...)`. -/
def handleJoinRoom (st : ServerState) (sid roomCode : String)
    (displayName : Option String) : ServerState × List Emit :=
  match mapGet st.rooms roomCode with
  | none => (st, [Emit.joinError sid "Room not found"])
  | some room =>
    let userData := joinUserData sid displayName
    let room' := roomWithParticipant room sid userData
    ({ st with
        rooms := mapSet st.rooms roomCode room'
        userSockets := mapSet st.userSockets sid
          { roomCode := roomCode, id := sid,
            displayName := userData.displayName, isHost := false } },
     [Emit.participantJoined roomCode userData room'.participants.length,
      Emit.roomJoined sid (snapshotOf room') userData])

/-- `{...room.settings, ...settings}`: a shallow merge, field by field. -/
def mergeSettings (s : Settings) (p : SettingsPatch) : Settings :=
  { playbackMode := p.playbackMode.getD s.playbackMode
    syncControl := p.syncControl.getD s.syncControl }

/-- `socket.on('update-room-settings', ...)`. -/
def handleUpdateSettings (st : ServerState) (sid roomCode : String)
    (patch : SettingsPatch) : ServerState × List Emit :=
  match mapGet st.rooms roomCode, mapGet st.userSockets sid with
  | some room, some user =>
    if user.isHost then
      let settings' := mergeSettings room.settings patch
      ({ st with rooms := mapSet st.rooms roomCode { room with settings := settings' } },
       [Emit.roomSettingsUpdated roomCode settings'])
    else
      (st, [Emit.errorMsg sid "Unauthorized to update room settings"])
  | _, _ => (st, [Emit.errorMsg sid "Unauthorized to update room settings"])

/-- The playlist mutation of `add-to-room-playlist`:
`songs.filter(song => !room.playlist.some(existing => existing._id === song._id))`
appended by `room.playlist.push(...newSongs)`.  Note the filter runs against the
playlist as it was before the push, never against earlier songs of the same batch. -/
def addSongsToPlaylist (playlist songs : List Track) : List Track :=
  playlist ++ songs.filter (fun song => ! playlist.any (fun existing => existing._id == song._id))

/-- `socket.on('add-to-room-playlist', ...)`. -/
def handleAddToPlaylist (st : ServerState) (sid roomCode : String)
    (songs : List Track) : ServerState × List Emit :=
  match mapGet st.rooms roomCode, mapGet st.userSockets sid with
  | some room, some user =>
    let playlist' := addSongsToPlaylist room.playlist songs
    ({ st with rooms := mapSet st.rooms roomCode { room with playlist := playlist' } },
     [Emit.playlistUpdatedAdded roomCode playlist' user.displayName])
  | _, _ => (st, [Emit.errorMsg sid "Room not found or user not in room"])

/-- The playlist mutation of `remove-from-room-playlist`:
`room.playlist.filter(song => !songIds.includes(song._id))`. -/
def removeSongsFromPlaylist (playlist : List Track) (songIds : List String) : List Track :=
  playlist.filter (fun song => ! songIds.contains song._id)

/-- `socket.on('remove-from-room-playlist', ...)`. -/
def handleRemoveFromPlaylist (st : ServerState) (sid roomCode : String)
    (songIds : List String) : ServerState × List Emit :=
  match mapGet st.rooms roomCode, mapGet st.userSockets sid with
  | some room, some user =>
    let playlist' := removeSongsFromPlaylist room.playlist songIds
    ({ st with rooms := mapSet st.rooms roomCode { room with playlist := playlist' } },
     [Emit.playlistUpdatedRemoved roomCode playlist' user.displayName])
  | _, _ => (st, [Emit.errorMsg sid "Room not found or user not in room"])

/-- `socket.on('sync-playback', ...)`. -/
def handleSyncPlayback (st : ServerState) (sid roomCode action songId : String)
    (currentTime : Int) (isPlaying : Bool) : ServerState × List Emit :=
  match mapGet st.rooms roomCode, mapGet st.userSockets sid with
  | some room, some user =>
    if room.settings.playbackMode = "sync" then
      if room.settings.syncControl = "host-only" ∧ user.isHost = false then
        (st, [Emit.errorMsg sid "Only host can control synchronized playback"])
      else
        (st, [Emit.syncPlaybackCommand roomCode sid action songId currentTime isPlaying
                user.displayName])
    else
      (st, [])
  | _, _ => (st, [Emit.errorMsg sid "Room not found or user not in room"])

/-- `socket.on('chat-message', ...)` (the `timestamp: new Date()` field is not
modelled). -/
def handleChatMessage (st : ServerState) (sid roomCode message : String) :
    ServerState × List Emit :=
  match mapGet st.rooms roomCode, mapGet st.userSockets sid with
  | some _, some user =>
    (st, [Emit.chatMessage roomCode user.displayName message])
  | _, _ => (st, [Emit.errorMsg sid "Room not found or user not in room"])

/-- A room after `room.participants.delete(socket.id)` and the
`participantCount` refresh of the disconnect handler. -/
def roomWithoutParticipant (room : Room) (sid : String) : Room :=
  { room with
    participants := mapDelete room.participants sid
    participantCount := (mapDelete room.participants sid).length }

/-- `socket.on('disconnect', ...)`.  The participant is first deleted from the
room's map; if the session is marked as host the room is then deleted from the
registry and its code from the code set, else the remaining members are told the
new count. -/
def handleDisconnect (st : ServerState) (sid : String) : ServerState × List Emit :=
  match mapGet st.userSockets sid with
  | none => (st, [])
  | some user =>
    match mapGet st.rooms user.roomCode with
    | none => ({ st with userSockets := mapDelete st.userSockets sid }, [])
    | some room =>
      let participants' := mapDelete room.participants sid
      let room' := roomWithoutParticipant room sid
      if user.isHost then
        ({ st with
            rooms := mapDelete (mapSet st.rooms user.roomCode room') user.roomCode
            roomCodes := st.roomCodes.filter (fun c => ! (c == user.roomCode))
            userSockets := mapDelete st.userSockets sid },
         [Emit.roomClosed user.roomCode "Host has left the room"])
      else
        ({ st with
            rooms := mapSet st.rooms user.roomCode room'
            userSockets := mapDelete st.userSockets sid },
         [Emit.participantLeft user.roomCode sid participants'.length])

/-- An inbound client event, dispatched by `setupSocketHandlers`.  `createRoom`
carries the stream of random draws its code generation will consume. -/
inductive InEvent where
  | createRoom (sid : String) (name description : Option String)
      (initialPlaylist : Option (List Track)) (attempts : List (Fin 6 → Fin 36))
  | joinRoom (sid roomCode : String) (displayName : Option String)
  | updateRoomSettings (sid roomCode : String) (patch : SettingsPatch)
  | addToRoomPlaylist (sid roomCode : String) (songs : List Track)
  | removeFromRoomPlaylist (sid roomCode : String) (songIds : List String)
  | syncPlayback (sid roomCode action songId : String) (currentTime : Int) (isPlaying : Bool)
  | chatMessage (sid roomCode message : String)
  | disconnect (sid : String)

/-- One dispatch of an inbound event to its handler. -/
def step (st : ServerState) (e : InEvent) : ServerState × List Emit :=
  match e with
  | .createRoom sid name description initialPlaylist attempts =>
      handleCreateRoom st sid name description initialPlaylist attempts
  | .joinRoom sid roomCode displayName => handleJoinRoom st sid roomCode displayName
  | .updateRoomSettings sid roomCode patch => handleUpdateSettings st sid roomCode patch
  | .addToRoomPlaylist sid roomCode songs => handleAddToPlaylist st sid roomCode songs
  | .removeFromRoomPlaylist sid roomCode songIds =>
      handleRemoveFromPlaylist st sid roomCode songIds
  | .syncPlayback sid roomCode action songId currentTime isPlaying =>
      handleSyncPlayback st sid roomCode action songId currentTime isPlaying
  | .chatMessage sid roomCode message => handleChatMessage st sid roomCode message
  | .disconnect sid => handleDisconnect st sid

/-- The state after one event. -/
def stepState (st : ServerState) (e : InEvent) : ServerState :=
  (step st e).1

/-- The events emitted by one event. -/
def stepEmits (st : ServerState) (e : InEvent) : List Emit :=
  (step st e).2

/-- Run a trace of inbound events. -/
def runEvents (st : ServerState) (es : List InEvent) : ServerState :=
  es.foldl stepState st

/-- The states the server can be in: the fresh state and everything an event
trace can produce from it. -/
inductive Reachable : ServerState → Prop where
  | init : Reachable initialState
  | step (st : ServerState) (e : InEvent) : Reachable st → Reachable (stepState st e)

/-- A well-formed room code: six characters, each drawn from the generation
alphabet `[A-Z0-9]`. -/
def wfCode (c : String) : Prop :=
  c.length = 6 ∧ ∀ ch ∈ c.data, ch ∈ chars.data

instance (c : String) : Decidable (wfCode c) := by
  unfold wfCode; infer_instance

theorem mapGet_mapSet_self {β : Type} (m : List (String × β)) (k : String) (v : β) :
    mapGet (mapSet m k v) k = some v := by
  induction m with
  | nil => simp [mapSet, mapGet]
  | cons hd tl ih =>
    obtain ⟨a, b⟩ := hd
    by_cases hak : a = k
    · simp [mapSet, mapGet, hak]
    · simp [mapSet, mapGet, hak, ih]

theorem mapGet_mapSet_ne {β : Type} (m : List (String × β)) (k k' : String) (v : β)
    (h : k ≠ k') : mapGet (mapSet m k v) k' = mapGet m k' := by
  induction m with
  | nil => simp [mapSet, mapGet, h]
  | cons hd tl ih =>
    obtain ⟨a, b⟩ := hd
    by_cases hak : a = k
    · subst hak; simp [mapSet, mapGet, h]
    · by_cases hak' : a = k'
      · simp [mapSet, mapGet, hak, hak', Ne.symm h]
      · simp [mapSet, mapGet, hak, hak', ih]

theorem mapGet_some_mem {β : Type} (m : List (String × β)) (k : String) (v : β)
    (h : mapGet m k = some v) : (k, v) ∈ m := by
  induction m with
  | nil => simp [mapGet] at h
  | cons hd tl ih =>
    obtain ⟨a, b⟩ := hd
    by_cases hak : a = k
    · subst hak
      simp [mapGet] at h
      simp [h]
    · simp [mapGet, hak] at h
      simp [ih h]

theorem mem_mapSet {β : Type} (m : List (String × β)) (k : String) (v : β) (p : String × β)
    (h : p ∈ mapSet m k v) : p ∈ m ∨ p = (k, v) := by
  induction m with
  | nil => simp [mapSet] at h; simp [h]
  | cons hd tl ih =>
    obtain ⟨a, b⟩ := hd
    by_cases hak : a = k
    · subst hak
      simp [mapSet] at h
      rcases h with h | h
      · right; exact h
      · left; simp [h]
    · simp [mapSet, hak] at h
      rcases h with h | h
      · left; simp [h]
      · rcases ih h with h' | h'
        · left; simp [h']
        · right; exact h'

theorem mapDelete_sublist {β : Type} (m : List (String × β)) (k : String) :
    List.Sublist (mapDelete m k) m := by
  induction m with
  | nil => simp [mapDelete]
  | cons hd tl ih =>
    obtain ⟨a, b⟩ := hd
    by_cases hak : a = k
    · simp [mapDelete, hak]
    · simpa [mapDelete, hak] using List.Sublist.cons₂ (a, b) ih

theorem keys_mapSet {β : Type} (m : List (String × β)) (k : String) (v : β) :
    keys (mapSet m k v) = if k ∈ keys m then keys m else keys m ++ [k] := by
  induction m with
  | nil => simp [mapSet, keys]
  | cons hd tl ih =>
    obtain ⟨x, y⟩ := hd
    by_cases hxk : x = k
    · subst hxk
      simp [mapSet, keys]
    · simp only [keys] at ih
      by_cases hk : k ∈ List.map Prod.fst tl
      · simp [mapSet, keys, hxk, Ne.symm hxk, ih, hk]
      · simp [mapSet, keys, hxk, Ne.symm hxk, ih, hk]

theorem mem_keys_mapSet {β : Type} (m : List (String × β)) (k : String) (v : β) (a : String) :
    a ∈ keys (mapSet m k v) ↔ a ∈ keys m ∨ a = k := by
  rw [keys_mapSet]
  by_cases hk : k ∈ keys m
  · simp [hk]
    intro ha
    subst ha
    exact hk
  · simp [hk]

theorem nodup_keys_mapSet {β : Type} (m : List (String × β)) (k : String) (v : β)
    (h : (keys m).Nodup) : (keys (mapSet m k v)).Nodup := by
  rw [keys_mapSet]
  by_cases hk : k ∈ keys m
  · simpa [hk] using h
  · simp only [hk, if_false]
    exact List.Nodup.append h (List.nodup_singleton k)
      (by simpa [List.disjoint_left] using hk)

theorem nodup_keys_mapDelete {β : Type} (m : List (String × β)) (k : String)
    (h : (keys m).Nodup) : (keys (mapDelete m k)).Nodup :=
  List.Nodup.sublist (List.Sublist.map Prod.fst (mapDelete_sublist m k)) h

theorem not_mem_keys_mapDelete {β : Type} (m : List (String × β)) (k : String)
    (h : (keys m).Nodup) : k ∉ keys (mapDelete m k) := by
  induction m with
  | nil => simp [mapDelete, keys]
  | cons hd tl ih =>
    obtain ⟨a, b⟩ := hd
    have hcons : a ∉ keys tl ∧ (keys tl).Nodup := by simpa [keys] using h
    by_cases hak : a = k
    · subst hak
      simpa [mapDelete] using hcons.1
    · simp only [mapDelete, if_neg hak]
      intro hmem
      rcases (by simpa [keys] using hmem : k = a ∨ k ∈ keys (mapDelete tl k)) with h' | h'
      · exact hak h'.symm
      · exact ih hcons.2 h'

theorem mem_mapDelete_of_nodup {β : Type} (m : List (String × β)) (k : String)
    (p : String × β) (h : (keys m).Nodup) (hp : p ∈ mapDelete m k) : p ∈ m ∧ p.1 ≠ k := by
  refine ⟨List.Sublist.mem hp (mapDelete_sublist m k), fun hpk => ?_⟩
  have hmem : p.1 ∈ keys (mapDelete m k) := List.mem_map_of_mem Prod.fst hp
  rw [hpk] at hmem
  exact not_mem_keys_mapDelete m k h hmem

theorem mapDelete_mapSet {β : Type} (m : List (String × β)) (k : String) (v : β) :
    mapDelete (mapSet m k v) k = mapDelete m k := by
  induction m with
  | nil => simp [mapSet, mapDelete]
  | cons hd tl ih =>
    obtain ⟨a, b⟩ := hd
    by_cases hak : a = k
    · simp [mapSet, mapDelete, hak]
    · simp [mapSet, mapDelete, hak, ih]

theorem mapGet_eq_none_of_not_mem_keys {β : Type} (m : List (String × β)) (k : String)
    (h : k ∉ keys m) : mapGet m k = none := by
  induction m with
  | nil => simp [mapGet]
  | cons hd tl ih =>
    obtain ⟨a, b⟩ := hd
    have hcons : k ∉ a :: keys tl := h
    have h1 : ¬ (a = k) := fun e => hcons (by simp [e])
    have h2 : k ∉ keys tl := fun e => hcons (by simp [e])
    simp [mapGet, h1, ih h2]

theorem mapGet_mapDelete_self {β : Type} (m : List (String × β)) (k : String)
    (h : (keys m).Nodup) : mapGet (mapDelete m k) k = none :=
  mapGet_eq_none_of_not_mem_keys (mapDelete m k) k (not_mem_keys_mapDelete m k h)

theorem isSome_mapGet_mapSet {β : Type} (m : List (String × β)) (k k' : String) (v : β)
    (h : (mapGet m k).isSome) : (mapGet (mapSet m k' v) k).isSome := by
  by_cases hk : k' = k
  · subst hk; simp [mapGet_mapSet_self]
  · rwa [mapGet_mapSet_ne m k' k v hk]

theorem getD_chars_mem : ∀ i : Fin 36, chars.data.getD i.val 'A' ∈ chars.data := by
  decide

theorem wfCode_codeOfFn (f : Fin 6 → Fin 36) : wfCode (codeOfFn f) := by
  refine ⟨?_, ?_⟩
  · show ((List.ofFn f).map (fun i => chars.data.getD i.val 'A')).length = 6
    simp
  · intro ch hch
    have h2 : ch ∈ (List.ofFn f).map (fun i => chars.data.getD i.val 'A') := hch
    simp only [List.mem_map] at h2
    obtain ⟨i, _, hi⟩ := h2
    exact hi ▸ getD_chars_mem i

theorem generateRoomCode_spec (attempts : List (Fin 6 → Fin 36)) (reserved : List String)
    (c : String) (h : generateRoomCode attempts reserved = some c) :
    c ∉ reserved ∧ wfCode c := by
  unfold generateRoomCode at h
  have h1 := List.find?_some h
  have h2 := List.mem_of_find?_eq_some h
  constructor
  · simpa using h1
  · simp only [List.mem_map] at h2
    obtain ⟨f, _, hf⟩ := h2
    exact hf ▸ wfCode_codeOfFn f

theorem generateRoomCode_singleton (f : Fin 6 → Fin 36) (reserved : List String)
    (h : codeOfFn f ∉ reserved) : generateRoomCode [f] reserved = some (codeOfFn f) := by
  simp [generateRoomCode, List.find?, h]

/-- The state invariant behind the room-code claims: the code set and both map
key lists are duplicate-free, every reserved code is well formed, and every live
room's key is reserved. -/
def Inv (st : ServerState) : Prop :=
  st.roomCodes.Nodup ∧
  (keys st.rooms).Nodup ∧
  (keys st.userSockets).Nodup ∧
  (∀ c ∈ st.roomCodes, wfCode c) ∧
  (∀ p ∈ st.rooms, p.1 ∈ st.roomCodes)

theorem inv_initial : Inv initialState := by
  simp [Inv, initialState, keys]

theorem inv_set_room (st : ServerState) (code : String) (room room' : Room)
    (us : List (String × SessionData)) (h : Inv st)
    (hget : mapGet st.rooms code = some room) (hus : (keys us).Nodup) :
    Inv { st with rooms := mapSet st.rooms code room', userSockets := us } := by
  obtain ⟨hcodes, hrooms, _, hwf, hres⟩ := h
  refine ⟨hcodes, nodup_keys_mapSet _ _ _ hrooms, hus, hwf, ?_⟩
  intro p hp
  rcases mem_mapSet _ _ _ _ hp with h' | h'
  · exact hres p h'
  · have hmem := hres (code, room) (mapGet_some_mem _ _ _ hget)
    simpa [h'] using hmem

theorem inv_step (st : ServerState) (e : InEvent) (h : Inv st) : Inv (stepState st e) := by
  obtain ⟨hcodes, hrooms, hsockets, hwf, hres⟩ := h
  cases e with
  | createRoom sid name description initialPlaylist attempts =>
    show Inv (handleCreateRoom st sid name description initialPlaylist attempts).1
    unfold handleCreateRoom
    cases hgen : generateRoomCode attempts st.roomCodes with
    | none => exact ⟨hcodes, hrooms, hsockets, hwf, hres⟩
    | some code =>
      obtain ⟨hfresh, hwfc⟩ := generateRoomCode_spec attempts st.roomCodes code hgen
      refine ⟨?_, nodup_keys_mapSet _ _ _ hrooms, nodup_keys_mapSet _ _ _ hsockets, ?_, ?_⟩
      · simp [List.nodup_append, hcodes, hfresh]
      · intro c hc
        rcases List.mem_append.mp hc with h' | h'
        · exact hwf c h'
        · have : c = code := by simpa using h'
          exact this ▸ hwfc
      · intro p hp
        rcases mem_mapSet _ _ _ _ hp with h' | h'
        · exact List.mem_append_left _ (hres p h')
        · simp [h']
  | joinRoom sid roomCode displayName =>
    show Inv (handleJoinRoom st sid roomCode displayName).1
    unfold handleJoinRoom
    cases hgr : mapGet st.rooms roomCode with
    | none => exact ⟨hcodes, hrooms, hsockets, hwf, hres⟩
    | some room =>
      exact inv_set_room st roomCode room _ _ ⟨hcodes, hrooms, hsockets, hwf, hres⟩ hgr
        (nodup_keys_mapSet _ _ _ hsockets)
  | updateRoomSettings sid roomCode patch =>
    show Inv (handleUpdateSettings st sid roomCode patch).1
    unfold handleUpdateSettings
    cases hgr : mapGet st.rooms roomCode with
    | none => exact ⟨hcodes, hrooms, hsockets, hwf, hres⟩
    | some room =>
      cases hgu : mapGet st.userSockets sid with
      | none => exact ⟨hcodes, hrooms, hsockets, hwf, hres⟩
      | some user =>
        by_cases hh : user.isHost
        · simp only [hh, if_true]
          exact inv_set_room st roomCode room _ _ ⟨hcodes, hrooms, hsockets, hwf, hres⟩ hgr
            hsockets
        · simp only [hh, if_false]
          exact ⟨hcodes, hrooms, hsockets, hwf, hres⟩
  | addToRoomPlaylist sid roomCode songs =>
    show Inv (handleAddToPlaylist st sid roomCode songs).1
    unfold handleAddToPlaylist
    cases hgr : mapGet st.rooms roomCode with
    | none => exact ⟨hcodes, hrooms, hsockets, hwf, hres⟩
    | some room =>
      cases hgu : mapGet st.userSockets sid with
      | none => exact ⟨hcodes, hrooms, hsockets, hwf, hres⟩
      | some user =>
        exact inv_set_room st roomCode room _ _ ⟨hcodes, hrooms, hsockets, hwf, hres⟩ hgr
          hsockets
  | removeFromRoomPlaylist sid roomCode songIds =>
    show Inv (handleRemoveFromPlaylist st sid roomCode songIds).1
    unfold handleRemoveFromPlaylist
    cases hgr : mapGet st.rooms roomCode with
    | none => exact ⟨hcodes, hrooms, hsockets, hwf, hres⟩
    | some room =>
      cases hgu : mapGet st.userSockets sid with
      | none => exact ⟨hcodes, hrooms, hsockets, hwf, hres⟩
      | some user =>
        exact inv_set_room st roomCode room _ _ ⟨hcodes, hrooms, hsockets, hwf, hres⟩ hgr
          hsockets
  | syncPlayback sid roomCode action songId currentTime isPlaying =>
    show Inv (handleSyncPlayback st sid roomCode action songId currentTime isPlaying).1
    unfold handleSyncPlayback
    cases hgr : mapGet st.rooms roomCode with
    | none => exact ⟨hcodes, hrooms, hsockets, hwf, hres⟩
    | some room =>
      cases hgu : mapGet st.userSockets sid with
      | none => exact ⟨hcodes, hrooms, hsockets, hwf, hres⟩
      | some user =>
        by_cases hmode : room.settings.playbackMode = "sync"
        · by_cases hctl : room.settings.syncControl = "host-only" ∧ user.isHost = false
          · simp only [hmode, if_true, hctl]
            exact ⟨hcodes, hrooms, hsockets, hwf, hres⟩
          · simp only [hmode, if_true, hctl, if_false]
            exact ⟨hcodes, hrooms, hsockets, hwf, hres⟩
        · simp only [hmode, if_false]
          exact ⟨hcodes, hrooms, hsockets, hwf, hres⟩
  | chatMessage sid roomCode message =>
    show Inv (handleChatMessage st sid roomCode message).1
    unfold handleChatMessage
    cases hgr : mapGet st.rooms roomCode with
    | none => exact ⟨hcodes, hrooms, hsockets, hwf, hres⟩
    | some room =>
      cases hgu : mapGet st.userSockets sid with
      | none => exact ⟨hcodes, hrooms, hsockets, hwf, hres⟩
      | some user => exact ⟨hcodes, hrooms, hsockets, hwf, hres⟩
  | disconnect sid =>
    show Inv (handleDisconnect st sid).1
    unfold handleDisconnect
    split
    · exact ⟨hcodes, hrooms, hsockets, hwf, hres⟩
    · rename_i user hgu
      split
      · exact ⟨hcodes, hrooms, nodup_keys_mapDelete _ _ hsockets, hwf, hres⟩
      · rename_i room hgr
        by_cases hh : user.isHost
        · simp only [hh, if_true]
          refine ⟨List.Nodup.filter _ hcodes, ?_, nodup_keys_mapDelete _ _ hsockets, ?_, ?_⟩
          · rw [mapDelete_mapSet]
            exact nodup_keys_mapDelete _ _ hrooms
          · intro c hc
            exact hwf c (List.mem_of_mem_filter hc)
          · intro p hp
            rw [mapDelete_mapSet] at hp
            obtain ⟨hpm, hpne⟩ := mem_mapDelete_of_nodup _ _ _ hrooms hp
            exact List.mem_filter.mpr ⟨hres p hpm, by simp [hpne]⟩
        · simp only [hh, if_false]
          exact inv_set_room st user.roomCode room _ _ ⟨hcodes, hrooms, hsockets, hwf, hres⟩
            hgr (nodup_keys_mapDelete _ _ hsockets)

theorem inv_reachable (st : ServerState) (h : Reachable st) : Inv st := by
  induction h with
  | init => exact inv_initial
  | step st' e _ ih => exact inv_step st' e ih

theorem step_createRoom (st : ServerState) (sid : String) (name description : Option String)
    (initialPlaylist : Option (List Track)) (attempts : List (Fin 6 → Fin 36)) (code : String)
    (hgen : generateRoomCode attempts st.roomCodes = some code) :
    step st (InEvent.createRoom sid name description initialPlaylist attempts) =
      ({ st with
          roomCodes := st.roomCodes ++ [code]
          rooms := mapSet st.rooms code (createdRoom sid name description initialPlaylist code)
          userSockets := mapSet st.userSockets sid
            { roomCode := code, id := sid, displayName := "Host", isHost := true } },
       [Emit.roomCreated sid
          (snapshotOf (createdRoom sid name description initialPlaylist code)) (hostData sid)]) := by
  simp only [step]
  unfold handleCreateRoom
  rw [hgen]

theorem step_updateSettings_host (st : ServerState) (sid roomCode : String)
    (patch : SettingsPatch) (room : Room) (user : SessionData)
    (hgr : mapGet st.rooms roomCode = some room)
    (hgu : mapGet st.userSockets sid = some user) (hh : user.isHost = true) :
    step st (InEvent.updateRoomSettings sid roomCode patch) =
      ({ st with rooms :=
            mapSet st.rooms roomCode ({ room with settings := mergeSettings room.settings patch }) },
       [Emit.roomSettingsUpdated roomCode (mergeSettings room.settings patch)]) := by
  simp only [step]
  unfold handleUpdateSettings
  rw [hgr, hgu]
  simp [hh]

theorem step_updateSettings_nonhost (st : ServerState) (sid roomCode : String)
    (patch : SettingsPatch) (room : Room) (user : SessionData)
    (hgr : mapGet st.rooms roomCode = some room)
    (hgu : mapGet st.userSockets sid = some user) (hh : user.isHost = false) :
    step st (InEvent.updateRoomSettings sid roomCode patch) =
      (st, [Emit.errorMsg sid "Unauthorized to update room settings"]) := by
  simp only [step]
  unfold handleUpdateSettings
  rw [hgr, hgu]
  simp [hh]

theorem step_updateSettings_noRoom (st : ServerState) (sid roomCode : String)
    (patch : SettingsPatch) (hgr : mapGet st.rooms roomCode = none) :
    step st (InEvent.updateRoomSettings sid roomCode patch) =
      (st, [Emit.errorMsg sid "Unauthorized to update room settings"]) := by
  simp only [step]
  unfold handleUpdateSettings
  rw [hgr]

theorem step_updateSettings_noUser (st : ServerState) (sid roomCode : String)
    (patch : SettingsPatch) (hgu : mapGet st.userSockets sid = none) :
    step st (InEvent.updateRoomSettings sid roomCode patch) =
      (st, [Emit.errorMsg sid "Unauthorized to update room settings"]) := by
  simp only [step]
  unfold handleUpdateSettings
  rw [hgu]
  cases mapGet st.rooms roomCode <;> rfl

theorem step_addToPlaylist (st : ServerState) (sid roomCode : String) (songs : List Track)
    (room : Room) (user : SessionData) (hgr : mapGet st.rooms roomCode = some room)
    (hgu : mapGet st.userSockets sid = some user) :
    step st (InEvent.addToRoomPlaylist sid roomCode songs) =
      ({ st with rooms :=
            mapSet st.rooms roomCode ({ room with playlist := addSongsToPlaylist room.playlist songs }) },
       [Emit.playlistUpdatedAdded roomCode (addSongsToPlaylist room.playlist songs)
          user.displayName]) := by
  simp only [step]
  unfold handleAddToPlaylist
  rw [hgr, hgu]

theorem step_removeFromPlaylist (st : ServerState) (sid roomCode : String)
    (songIds : List String) (room : Room) (user : SessionData)
    (hgr : mapGet st.rooms roomCode = some room)
    (hgu : mapGet st.userSockets sid = some user) :
    step st (InEvent.removeFromRoomPlaylist sid roomCode songIds) =
      ({ st with rooms :=
            mapSet st.rooms roomCode ({ room with playlist := removeSongsFromPlaylist room.playlist songIds }) },
       [Emit.playlistUpdatedRemoved roomCode (removeSongsFromPlaylist room.playlist songIds)
          user.displayName]) := by
  simp only [step]
  unfold handleRemoveFromPlaylist
  rw [hgr, hgu]

theorem step_syncPlayback_unauthorized (st : ServerState)
    (sid roomCode action songId : String) (currentTime : Int) (isPlaying : Bool)
    (room : Room) (user : SessionData) (hgr : mapGet st.rooms roomCode = some room)
    (hgu : mapGet st.userSockets sid = some user)
    (hmode : room.settings.playbackMode = "sync")
    (hctl : room.settings.syncControl = "host-only") (hh : user.isHost = false) :
    step st (InEvent.syncPlayback sid roomCode action songId currentTime isPlaying) =
      (st, [Emit.errorMsg sid "Only host can control synchronized playback"]) := by
  simp only [step]
  unfold handleSyncPlayback
  rw [hgr, hgu]
  simp [hmode, hctl, hh]

theorem step_syncPlayback_broadcast (st : ServerState)
    (sid roomCode action songId : String) (currentTime : Int) (isPlaying : Bool)
    (room : Room) (user : SessionData) (hgr : mapGet st.rooms roomCode = some room)
    (hgu : mapGet st.userSockets sid = some user)
    (hmode : room.settings.playbackMode = "sync")
    (hauth : user.isHost = true ∨ room.settings.syncControl ≠ "host-only") :
    step st (InEvent.syncPlayback sid roomCode action songId currentTime isPlaying) =
      (st, [Emit.syncPlaybackCommand roomCode sid action songId currentTime isPlaying
              user.displayName]) := by
  simp only [step]
  unfold handleSyncPlayback
  rw [hgr, hgu]
  have hcond : ¬ (room.settings.syncControl = "host-only" ∧ user.isHost = false) := by
    rcases hauth with h' | h'
    · simp [h']
    · simp [h']
  simp [hmode, hcond]

theorem step_syncPlayback_notSync (st : ServerState)
    (sid roomCode action songId : String) (currentTime : Int) (isPlaying : Bool)
    (room : Room) (user : SessionData) (hgr : mapGet st.rooms roomCode = some room)
    (hgu : mapGet st.userSockets sid = some user)
    (hmode : room.settings.playbackMode ≠ "sync") :
    step st (InEvent.syncPlayback sid roomCode action songId currentTime isPlaying) =
      (st, []) := by
  simp only [step]
  unfold handleSyncPlayback
  rw [hgr, hgu]
  simp [hmode]

theorem step_disconnect_host (st : ServerState) (sid : String) (user : SessionData)
    (room : Room) (hgu : mapGet st.userSockets sid = some user)
    (hgr : mapGet st.rooms user.roomCode = some room) (hh : user.isHost = true) :
    step st (InEvent.disconnect sid) =
      ({ st with
          rooms := mapDelete (mapSet st.rooms user.roomCode
            (roomWithoutParticipant room sid)) user.roomCode
          roomCodes := st.roomCodes.filter (fun c => ! (c == user.roomCode))
          userSockets := mapDelete st.userSockets sid },
       [Emit.roomClosed user.roomCode "Host has left the room"]) := by
  simp only [step]
  unfold handleDisconnect
  simp only [hgu, hgr]
  simp [hh]

theorem step_disconnect_nonhost (st : ServerState) (sid : String) (user : SessionData)
    (room : Room) (hgu : mapGet st.userSockets sid = some user)
    (hgr : mapGet st.rooms user.roomCode = some room) (hh : user.isHost = false) :
    step st (InEvent.disconnect sid) =
      ({ st with
          rooms := mapSet st.rooms user.roomCode (roomWithoutParticipant room sid)
          userSockets := mapDelete st.userSockets sid },
       [Emit.participantLeft user.roomCode sid
          (mapDelete room.participants sid).length]) := by
  simp only [step]
  unfold handleDisconnect
  simp only [hgu, hgr]
  simp [hh]

theorem userSockets_step_nondisconnect (st : ServerState) (e : InEvent) (sid : String)
    (hne : ∀ s, e ≠ InEvent.disconnect s)
    (hb : (mapGet st.userSockets sid).isSome = true) :
    (mapGet (stepState st e).userSockets sid).isSome = true := by
  cases e with
  | createRoom s name description initialPlaylist attempts =>
    show (mapGet (handleCreateRoom st s name description initialPlaylist attempts).1.userSockets
      sid).isSome = true
    unfold handleCreateRoom
    split
    · exact hb
    · exact isSome_mapGet_mapSet _ _ _ _ hb
  | joinRoom s roomCode displayName =>
    show (mapGet (handleJoinRoom st s roomCode displayName).1.userSockets sid).isSome = true
    unfold handleJoinRoom
    split
    · exact hb
    · exact isSome_mapGet_mapSet _ _ _ _ hb
  | updateRoomSettings s roomCode patch =>
    show (mapGet (handleUpdateSettings st s roomCode patch).1.userSockets sid).isSome = true
    unfold handleUpdateSettings
    split
    · split
      · exact hb
      · exact hb
    · exact hb
  | addToRoomPlaylist s roomCode songs =>
    show (mapGet (handleAddToPlaylist st s roomCode songs).1.userSockets sid).isSome = true
    unfold handleAddToPlaylist
    split
    · exact hb
    · exact hb
  | removeFromRoomPlaylist s roomCode songIds =>
    show (mapGet (handleRemoveFromPlaylist st s roomCode songIds).1.userSockets sid).isSome
      = true
    unfold handleRemoveFromPlaylist
    split
    · exact hb
    · exact hb
  | syncPlayback s roomCode action songId currentTime isPlaying =>
    show (mapGet (handleSyncPlayback st s roomCode action songId currentTime
      isPlaying).1.userSockets sid).isSome = true
    unfold handleSyncPlayback
    split
    · split
      · split
        · exact hb
        · exact hb
      · exact hb
    · exact hb
  | chatMessage s roomCode message =>
    show (mapGet (handleChatMessage st s roomCode message).1.userSockets sid).isSome = true
    unfold handleChatMessage
    split
    · exact hb
    · exact hb
  | disconnect s => exact absurd rfl (hne s)

theorem mem_roomCodes_step (st : ServerState) (e : InEvent) (c : String)
    (hc : c ∈ st.roomCodes) (hne : ∀ s, e ≠ InEvent.disconnect s) :
    c ∈ (stepState st e).roomCodes := by
  cases e with
  | createRoom s name description initialPlaylist attempts =>
    show c ∈ (handleCreateRoom st s name description initialPlaylist attempts).1.roomCodes
    unfold handleCreateRoom
    split
    · exact hc
    · exact List.mem_append_left _ hc
  | joinRoom s roomCode displayName =>
    show c ∈ (handleJoinRoom st s roomCode displayName).1.roomCodes
    unfold handleJoinRoom
    split
    · exact hc
    · exact hc
  | updateRoomSettings s roomCode patch =>
    show c ∈ (handleUpdateSettings st s roomCode patch).1.roomCodes
    unfold handleUpdateSettings
    split
    · split
      · exact hc
      · exact hc
    · exact hc
  | addToRoomPlaylist s roomCode songs =>
    show c ∈ (handleAddToPlaylist st s roomCode songs).1.roomCodes
    unfold handleAddToPlaylist
    split
    · exact hc
    · exact hc
  | removeFromRoomPlaylist s roomCode songIds =>
    show c ∈ (handleRemoveFromPlaylist st s roomCode songIds).1.roomCodes
    unfold handleRemoveFromPlaylist
    split
    · exact hc
    · exact hc
  | syncPlayback s roomCode action songId currentTime isPlaying =>
    show c ∈
      (handleSyncPlayback st s roomCode action songId currentTime isPlaying).1.roomCodes
    unfold handleSyncPlayback
    split
    · split
      · split
        · exact hc
        · exact hc
      · exact hc
    · exact hc
  | chatMessage s roomCode message =>
    show c ∈ (handleChatMessage st s roomCode message).1.roomCodes
    unfold handleChatMessage
    split
    · exact hc
    · exact hc
  | disconnect s => exact absurd rfl (hne s)

theorem userSockets_disconnect_unbinds (st : ServerState) (sid : String)
    (hnodup : (keys st.userSockets).Nodup) :
    mapGet (stepState st (InEvent.disconnect sid)).userSockets sid = none := by
  show mapGet (handleDisconnect st sid).1.userSockets sid = none
  unfold handleDisconnect
  split
  · rename_i hgu
    exact hgu
  · rename_i user hgu
    split
    · exact mapGet_mapDelete_self _ _ hnodup
    · rename_i room hgr
      by_cases hh : user.isHost
      · simp only [hh, if_true]
        exact mapGet_mapDelete_self _ _ hnodup
      · simp only [hh, if_false]
        exact mapGet_mapDelete_self _ _ hnodup

/-- C6: every room code is a 6-character string over `[A-Z0-9]`; in every reachable
state no two live rooms share a code and every live room's code is reserved;
generation returns only codes fresh for the live-code set (retrying on collision)
and well formed; a code leaves the reserved set only through the disconnect that
destroys its owning room, and such a freed code can be issued to a later
`create-room`. -/
theorem C6_room_code_invariants :
    (∀ st : ServerState, Reachable st →
      (∀ c ∈ st.roomCodes, wfCode c) ∧ (keys st.rooms).Nodup ∧
      (∀ p ∈ st.rooms, p.1 ∈ st.roomCodes ∧ wfCode p.1)) ∧
    (∀ (attempts : List (Fin 6 → Fin 36)) (reserved : List String) (c : String),
      generateRoomCode attempts reserved = some c → c ∉ reserved ∧ wfCode c) ∧
    (∀ (st : ServerState) (e : InEvent) (c : String), Reachable st →
      c ∈ st.roomCodes → c ∉ (stepState st e).roomCodes →
      (∃ sid, e = InEvent.disconnect sid) ∧ mapGet (stepState st e).rooms c = none) ∧
    (∀ (reserved : List String) (f : Fin 6 → Fin 36), codeOfFn f ∉ reserved →
      generateRoomCode [f] reserved = some (codeOfFn f)) := by
  refine ⟨?_, generateRoomCode_spec, ?_, fun reserved f h => generateRoomCode_singleton f reserved h⟩
  · intro st hst
    obtain ⟨hcodes, hrooms, hsockets, hwf, hres⟩ := inv_reachable st hst
    exact ⟨hwf, hrooms, fun p hp => ⟨hres p hp, hwf p.1 (hres p hp)⟩⟩
  · intro st e c hst hin hout
    obtain ⟨hcodes, hrooms, hsockets, hwf, hres⟩ := inv_reachable st hst
    cases e with
    | createRoom s name description initialPlaylist attempts =>
      exact absurd (mem_roomCodes_step st _ c hin (fun s h => by cases h)) hout
    | joinRoom s roomCode displayName =>
      exact absurd (mem_roomCodes_step st _ c hin (fun s h => by cases h)) hout
    | updateRoomSettings s roomCode patch =>
      exact absurd (mem_roomCodes_step st _ c hin (fun s h => by cases h)) hout
    | addToRoomPlaylist s roomCode songs =>
      exact absurd (mem_roomCodes_step st _ c hin (fun s h => by cases h)) hout
    | removeFromRoomPlaylist s roomCode songIds =>
      exact absurd (mem_roomCodes_step st _ c hin (fun s h => by cases h)) hout
    | syncPlayback s roomCode action songId currentTime isPlaying =>
      exact absurd (mem_roomCodes_step st _ c hin (fun s h => by cases h)) hout
    | chatMessage s roomCode message =>
      exact absurd (mem_roomCodes_step st _ c hin (fun s h => by cases h)) hout
    | disconnect sid =>
      refine ⟨⟨sid, rfl⟩, ?_⟩
      cases hgu : mapGet st.userSockets sid with
      | none =>
        have hsame : stepState st (InEvent.disconnect sid) = st := by
          show (handleDisconnect st sid).1 = st
          unfold handleDisconnect
          rw [hgu]
        rw [hsame] at hout
        exact absurd hin hout
      | some user =>
        cases hgr : mapGet st.rooms user.roomCode with
        | none =>
          have hsame : (stepState st (InEvent.disconnect sid)).roomCodes = st.roomCodes := by
            show (handleDisconnect st sid).1.roomCodes = st.roomCodes
            unfold handleDisconnect
            simp only [hgu, hgr]
          rw [hsame] at hout
          exact absurd hin hout
        | some room =>
          by_cases hh : user.isHost
          · have heq := step_disconnect_host st sid user room hgu hgr hh
            have hstep : stepState st (InEvent.disconnect sid) =
                { st with
                    rooms := mapDelete (mapSet st.rooms user.roomCode
                      (roomWithoutParticipant room sid)) user.roomCode
                    roomCodes := st.roomCodes.filter (fun c => ! (c == user.roomCode))
                    userSockets := mapDelete st.userSockets sid } := by
              rw [stepState, heq]
            rw [hstep] at hout ⊢
            by_cases hc : c = user.roomCode
            · subst hc
              show mapGet (mapDelete (mapSet st.rooms user.roomCode
                (roomWithoutParticipant room sid)) user.roomCode) user.roomCode = none
              rw [mapDelete_mapSet]
              exact mapGet_mapDelete_self _ _ hrooms
            · exact absurd (List.mem_filter.mpr ⟨hin, by simp [hc]⟩) hout
          · have heq := step_disconnect_nonhost st sid user room hgu hgr
              (by simpa using hh)
            have hsame : (stepState st (InEvent.disconnect sid)).roomCodes = st.roomCodes := by
              rw [stepState, heq]
            rw [hsame] at hout
            exact absurd hin hout

/-- Closed witness for C6: the fresh server state is reachable and satisfies the
invariant, and a concrete draw stream is issued its (well-formed, fresh) code. -/
theorem C6_room_code_invariants_witness :
    (∀ c ∈ initialState.roomCodes, wfCode c) ∧
    generateRoomCode [fun _ => (0 : Fin 36)] [] = some "AAAAAA" :=
  ⟨(C6_room_code_invariants.1 initialState Reachable.init).1,
   (C6_room_code_invariants.2.2.2 [] (fun _ => 0) (by simp)).trans (by decide)⟩

/-- C7: the playlist-add operation is idempotent: applying the add with one and
the same batch twice in succession yields exactly the playlist of applying it
once — resubmitting a batch after a partial success adds nothing new. -/
theorem C7_playlist_add_idempotent (playlist songs : List Track) :
    addSongsToPlaylist (addSongsToPlaylist playlist songs) songs =
      addSongsToPlaylist playlist songs := by
  have key : ∀ s ∈ songs,
      ((addSongsToPlaylist playlist songs).any fun existing => existing._id == s._id)
        = true := by
    intro s hs
    rw [List.any_eq_true]
    cases hcase : playlist.any fun existing => existing._id == s._id with
    | true =>
      rw [List.any_eq_true] at hcase
      obtain ⟨e, he, heq⟩ := hcase
      exact ⟨e, List.mem_append_left _ he, heq⟩
    | false =>
      refine ⟨s, List.mem_append_right _ ?_, by simp⟩
      rw [List.mem_filter]
      exact ⟨hs, by simp [hcase]⟩
  have hnil : (songs.filter fun song =>
      ! ((addSongsToPlaylist playlist songs).any fun existing => existing._id == song._id))
        = [] := by
    rw [List.filter_eq_nil_iff]
    intro s hs
    simp [key s hs]
  calc addSongsToPlaylist (addSongsToPlaylist playlist songs) songs
      = addSongsToPlaylist playlist songs ++ (songs.filter fun song =>
          ! ((addSongsToPlaylist playlist songs).any fun existing =>
              existing._id == song._id)) := rfl
    _ = addSongsToPlaylist playlist songs := by rw [hnil, List.append_nil]

/-- C8: the playlist-remove operation drops exactly the tracks whose id is in the
given id list, silently ignores absent ids (removing a nonexistent id changes
nothing), is idempotent, and preserves the relative order of all remaining
tracks. -/
theorem C8_playlist_remove_properties (playlist : List Track) (songIds : List String) :
    (∀ s : Track, s ∈ removeSongsFromPlaylist playlist songIds ↔
      s ∈ playlist ∧ s._id ∉ songIds) ∧
    removeSongsFromPlaylist (removeSongsFromPlaylist playlist songIds) songIds =
      removeSongsFromPlaylist playlist songIds ∧
    ((∀ s ∈ playlist, s._id ∉ songIds) → removeSongsFromPlaylist playlist songIds = playlist) ∧
    List.Sublist (removeSongsFromPlaylist playlist songIds) playlist := by
  refine ⟨?_, ?_, ?_, List.filter_sublist _⟩
  · intro s
    unfold removeSongsFromPlaylist
    rw [List.mem_filter]
    simp
  · show (playlist.filter fun song => ! songIds.contains song._id).filter
        (fun song => ! songIds.contains song._id)
      = playlist.filter fun song => ! songIds.contains song._id
    apply List.filter_eq_self.mpr
    intro s hs
    exact (List.mem_filter.mp hs).2
  · intro hall
    show (playlist.filter fun song => ! songIds.contains song._id) = playlist
    apply List.filter_eq_self.mpr
    intro s hs
    simp [hall s hs]

/-- Closed witness for C8: removing an absent id from a concrete one-track
playlist leaves it unchanged. -/
theorem C8_playlist_remove_properties_witness :
    (∀ s ∈ [Track.mk "a" "x"], s._id ∉ ["z"]) ∧
    removeSongsFromPlaylist [Track.mk "a" "x"] ["z"] = [Track.mk "a" "x"] :=
  ⟨by decide, (C8_playlist_remove_properties [Track.mk "a" "x"] ["z"]).2.2.1 (by decide)⟩

/-- The constant draw stream whose first candidate is room code "AAAAAA". -/
def drawA : Fin 6 → Fin 36 := fun _ => 0

/-- The constant draw stream whose first candidate is room code "BBBBBB". -/
def drawB : Fin 6 → Fin 36 := fun _ => 1

/-- C1 counterexample: the creator of room "AAAAAA" re-joins their own room (which
overwrites their session flag with `isHost:false`), then disconnects.  The departing
participant is the room's host (`hostId = "s1"`), yet afterwards the room is still in
the registry, its code is still reserved, and the emitted event is `participant-left`,
not `room-closed` — contradicting the claim as stated. -/
theorem C1_host_departure_counterexample :
    ((mapGet (runEvents initialState
        [InEvent.createRoom "s1" none none none [drawA],
         InEvent.joinRoom "s1" "AAAAAA" (some "Sam")]).rooms "AAAAAA").map Room.hostId
      = some "s1") ∧
    (stepEmits (runEvents initialState
        [InEvent.createRoom "s1" none none none [drawA],
         InEvent.joinRoom "s1" "AAAAAA" (some "Sam")]) (InEvent.disconnect "s1")
      = [Emit.participantLeft "AAAAAA" "s1" 0]) ∧
    ((mapGet (stepState (runEvents initialState
        [InEvent.createRoom "s1" none none none [drawA],
         InEvent.joinRoom "s1" "AAAAAA" (some "Sam")]) (InEvent.disconnect "s1")).rooms
        "AAAAAA").isSome = true) ∧
    ("AAAAAA" ∈ (stepState (runEvents initialState
        [InEvent.createRoom "s1" none none none [drawA],
         InEvent.joinRoom "s1" "AAAAAA" (some "Sam")]) (InEvent.disconnect "s1")).roomCodes) := by
  refine ⟨by decide, by decide, by decide, by decide⟩

/-- C1 (amended): on disconnect, if the departing connection's session binding is
marked as host (`isHost` in `userSockets` — which coincides with being the room's
`hostId` except when the host has re-joined the room), the bound room is removed
from the registry, its code leaves the live-code set and can be issued to a later
create, and the one emitted event is a terminal `room-closed` to the room; if the
binding is not marked as host, the room survives with the participant removed and
the one emitted event is `participant-left` carrying the updated count. -/
theorem C1_host_departure_amended (st : ServerState) (sid : String) (user : SessionData)
    (room : Room) (hst : Reachable st) (hgu : mapGet st.userSockets sid = some user)
    (hgr : mapGet st.rooms user.roomCode = some room) :
    (user.isHost = true →
      mapGet (stepState st (InEvent.disconnect sid)).rooms user.roomCode = none ∧
      user.roomCode ∉ (stepState st (InEvent.disconnect sid)).roomCodes ∧
      (∀ f : Fin 6 → Fin 36, codeOfFn f = user.roomCode →
        generateRoomCode [f] (stepState st (InEvent.disconnect sid)).roomCodes
          = some user.roomCode) ∧
      stepEmits st (InEvent.disconnect sid)
        = [Emit.roomClosed user.roomCode "Host has left the room"] ∧
      audienceOf (Emit.roomClosed user.roomCode "Host has left the room")
        = Audience.room user.roomCode) ∧
    (user.isHost = false →
      mapGet (stepState st (InEvent.disconnect sid)).rooms user.roomCode
        = some (roomWithoutParticipant room sid) ∧
      stepEmits st (InEvent.disconnect sid)
        = [Emit.participantLeft user.roomCode sid
            (mapDelete room.participants sid).length] ∧
      audienceOf (Emit.participantLeft user.roomCode sid
          (mapDelete room.participants sid).length) = Audience.room user.roomCode) := by
  obtain ⟨hcodes, hrooms, hsockets, hwf, hres⟩ := inv_reachable st hst
  constructor
  · intro hh
    have heq := step_disconnect_host st sid user room hgu hgr hh
    have h1 : stepState st (InEvent.disconnect sid) =
        { st with
            rooms := mapDelete (mapSet st.rooms user.roomCode
              (roomWithoutParticipant room sid)) user.roomCode
            roomCodes := st.roomCodes.filter (fun c => ! (c == user.roomCode))
            userSockets := mapDelete st.userSockets sid } := by
      rw [stepState, heq]
    have h2 : stepEmits st (InEvent.disconnect sid)
        = [Emit.roomClosed user.roomCode "Host has left the room"] := by
      rw [stepEmits, heq]
    have hnone : mapGet (stepState st (InEvent.disconnect sid)).rooms user.roomCode
        = none := by
      rw [h1]
      show mapGet (mapDelete (mapSet st.rooms user.roomCode
        (roomWithoutParticipant room sid)) user.roomCode) user.roomCode = none
      rw [mapDelete_mapSet]
      exact mapGet_mapDelete_self _ _ hrooms
    have hnotmem : user.roomCode ∉ (stepState st (InEvent.disconnect sid)).roomCodes := by
      rw [h1]
      intro hmem
      have hpred := (List.mem_filter.mp hmem).2
      simp at hpred
    refine ⟨hnone, hnotmem, ?_, h2, rfl⟩
    intro f hf
    have hg := generateRoomCode_singleton f
      (stepState st (InEvent.disconnect sid)).roomCodes (by rw [hf]; exact hnotmem)
    rw [hf] at hg
    exact hg
  · intro hh
    have heq := step_disconnect_nonhost st sid user room hgu hgr hh
    have h1 : stepState st (InEvent.disconnect sid) =
        { st with
            rooms := mapSet st.rooms user.roomCode (roomWithoutParticipant room sid)
            userSockets := mapDelete st.userSockets sid } := by
      rw [stepState, heq]
    have h2 : stepEmits st (InEvent.disconnect sid)
        = [Emit.participantLeft user.roomCode sid
            (mapDelete room.participants sid).length] := by
      rw [stepEmits, heq]
    refine ⟨?_, h2, rfl⟩
    rw [h1]
    show mapGet (mapSet st.rooms user.roomCode (roomWithoutParticipant room sid))
      user.roomCode = some (roomWithoutParticipant room sid)
    exact mapGet_mapSet_self _ _ _

/-- Closed witness for C1 (amended): a host creates "AAAAAA", a second user joins,
the host disconnects; the room is gone from the registry. -/
theorem C1_host_departure_amended_witness :
    mapGet (stepState (runEvents initialState
        [InEvent.createRoom "s1" none none none [drawA],
         InEvent.joinRoom "s2" "AAAAAA" (some "Sam")]) (InEvent.disconnect "s1")).rooms
      "AAAAAA" = none :=
  ((C1_host_departure_amended (runEvents initialState
      [InEvent.createRoom "s1" none none none [drawA],
       InEvent.joinRoom "s2" "AAAAAA" (some "Sam")])
    "s1" { roomCode := "AAAAAA", id := "s1", displayName := "Host", isHost := true }
    { code := "AAAAAA", name := "Music Room", description := "", playlist := [],
      settings := { playbackMode := "individual", syncControl := "host-only" },
      participants := [("s1", { id := "s1", displayName := "Host", isHost := true }),
        ("s2", { id := "s2", displayName := "Sam", isHost := false })],
      participantCount := 2, hostId := "s1" }
    (Reachable.step _ _ (Reachable.step _ _ Reachable.init)) rfl rfl).1 rfl).1

/-- C2 counterexample: "s1" creates room "AAAAAA" (becoming its host), switches it to
sync / host-only, then joins room "BBBBBB" — which rebinds the session with
`isHost:false`.  A `sync-playback` from "s1" addressed to "AAAAAA" is then rejected
with the Unauthorized error and nothing is broadcast, although "s1" is both a member
of "AAAAAA" (still in its participants map) and its host (`hostId = "s1"`) —
contradicting the claim that the host's command is broadcast under host-only. -/
theorem C2_sync_authority_counterexample :
    ((mapGet (runEvents initialState
        [InEvent.createRoom "s1" none none none [drawA],
         InEvent.updateRoomSettings "s1" "AAAAAA"
           { playbackMode := some "sync", syncControl := none },
         InEvent.createRoom "s2" none none none [drawB],
         InEvent.joinRoom "s1" "BBBBBB" (some "Sam")]).rooms "AAAAAA").map
        (fun r => (r.hostId, r.settings.playbackMode, r.settings.syncControl,
          (mapGet r.participants "s1").isSome))
      = some ("s1", "sync", "host-only", true)) ∧
    (stepEmits (runEvents initialState
        [InEvent.createRoom "s1" none none none [drawA],
         InEvent.updateRoomSettings "s1" "AAAAAA"
           { playbackMode := some "sync", syncControl := none },
         InEvent.createRoom "s2" none none none [drawB],
         InEvent.joinRoom "s1" "BBBBBB" (some "Sam")])
        (InEvent.syncPlayback "s1" "AAAAAA" "play" "t1" 0 true)
      = [Emit.errorMsg "s1" "Only host can control synchronized playback"]) := by
  refine ⟨by decide, by decide⟩

/-- C2 (amended): for a `sync-playback` whose room and sender session both resolve,
the state never changes, and: under sync + host-only a sender whose session binding
is not marked as host gets the Unauthorized error and nothing is broadcast; a sender
whose binding is marked as host (or any sender when syncControl is not host-only) has
the command broadcast to the room minus the sender; under individual mode nothing is
emitted at all.  (Authorization tests the binding's `isHost` flag, not the addressed
room's `hostId`, and membership in the addressed room is not checked.) -/
theorem C2_sync_playback_amended (st : ServerState) (sid roomCode action songId : String)
    (currentTime : Int) (isPlaying : Bool) (room : Room) (user : SessionData)
    (hgr : mapGet st.rooms roomCode = some room)
    (hgu : mapGet st.userSockets sid = some user) :
    stepState st (InEvent.syncPlayback sid roomCode action songId currentTime isPlaying)
      = st ∧
    (room.settings.playbackMode = "sync" → room.settings.syncControl = "host-only" →
      user.isHost = false →
      stepEmits st (InEvent.syncPlayback sid roomCode action songId currentTime isPlaying)
        = [Emit.errorMsg sid "Only host can control synchronized playback"]) ∧
    (room.settings.playbackMode = "sync" →
      (user.isHost = true ∨ room.settings.syncControl ≠ "host-only") →
      stepEmits st (InEvent.syncPlayback sid roomCode action songId currentTime isPlaying)
        = [Emit.syncPlaybackCommand roomCode sid action songId currentTime isPlaying
            user.displayName] ∧
      audienceOf (Emit.syncPlaybackCommand roomCode sid action songId currentTime isPlaying
          user.displayName) = Audience.roomExceptSender roomCode sid) ∧
    (room.settings.playbackMode = "individual" →
      stepEmits st (InEvent.syncPlayback sid roomCode action songId currentTime isPlaying)
        = []) := by
  refine ⟨?_, ?_, ?_, ?_⟩
  · by_cases hmode : room.settings.playbackMode = "sync"
    · by_cases hctl : room.settings.syncControl = "host-only" ∧ user.isHost = false
      · rw [stepState, step_syncPlayback_unauthorized st sid roomCode action songId
          currentTime isPlaying room user hgr hgu hmode hctl.1 hctl.2]
      · have hauth : user.isHost = true ∨ room.settings.syncControl ≠ "host-only" := by
          by_cases hc2 : room.settings.syncControl = "host-only"
          · left
            cases hhost : user.isHost with
            | false => exact absurd ⟨hc2, hhost⟩ hctl
            | true => rfl
          · right
            exact hc2
        rw [stepState, step_syncPlayback_broadcast st sid roomCode action songId
          currentTime isPlaying room user hgr hgu hmode hauth]
    · rw [stepState, step_syncPlayback_notSync st sid roomCode action songId
        currentTime isPlaying room user hgr hgu hmode]
  · intro hmode hctl hh
    rw [stepEmits, step_syncPlayback_unauthorized st sid roomCode action songId
      currentTime isPlaying room user hgr hgu hmode hctl hh]
  · intro hmode hauth
    refine ⟨?_, rfl⟩
    rw [stepEmits, step_syncPlayback_broadcast st sid roomCode action songId
      currentTime isPlaying room user hgr hgu hmode hauth]
  · intro hmode
    have hne : room.settings.playbackMode ≠ "sync" := by
      rw [hmode]
      decide
    rw [stepEmits, step_syncPlayback_notSync st sid roomCode action songId
      currentTime isPlaying room user hgr hgu hne]

/-- Closed witness for C2 (amended): a joiner (binding not marked host) issuing
`sync-playback` in a sync / host-only room gets the Unauthorized error. -/
theorem C2_sync_playback_amended_witness :
    stepEmits (runEvents initialState
        [InEvent.createRoom "s1" none none none [drawA],
         InEvent.updateRoomSettings "s1" "AAAAAA"
           { playbackMode := some "sync", syncControl := none },
         InEvent.joinRoom "s2" "AAAAAA" (some "Sam")])
      (InEvent.syncPlayback "s2" "AAAAAA" "play" "t1" 0 true)
      = [Emit.errorMsg "s2" "Only host can control synchronized playback"] :=
  ((C2_sync_playback_amended (runEvents initialState
      [InEvent.createRoom "s1" none none none [drawA],
       InEvent.updateRoomSettings "s1" "AAAAAA"
         { playbackMode := some "sync", syncControl := none },
       InEvent.joinRoom "s2" "AAAAAA" (some "Sam")])
    "s2" "AAAAAA" "play" "t1" 0 true _ _ rfl rfl).2.1) rfl rfl rfl

/-- C3 counterexample: one `add-to-room-playlist` batch holding two tracks with the
same id "a" (the playlist being empty) appends both, so track ids are not unique
afterwards — the dedup filter runs only against the pre-existing playlist, never
within the batch. -/
theorem C3_playlist_unique_counterexample :
    ((mapGet (runEvents initialState
        [InEvent.createRoom "s1" none none none [drawA],
         InEvent.addToRoomPlaylist "s1" "AAAAAA"
           [Track.mk "a" "x", Track.mk "a" "y"]]).rooms "AAAAAA").map
        (fun r => r.playlist.map Track._id)
      = some ["a", "a"]) ∧
    ¬ (List.Nodup ["a", "a"]) := by
  refine ⟨by decide, by decide⟩

/-- C3 (amended): the add operation appends exactly the batch tracks whose id is not
already present in the playlist as it was before the operation (tracks already
present win over the batch), and id uniqueness is preserved provided the batch
itself carries no duplicate ids; a batch with an internal duplicate id not yet in
the playlist inserts both copies. -/
theorem C3_playlist_add_amended (st : ServerState) (sid roomCode : String)
    (songs : List Track) (room : Room) (user : SessionData)
    (hgr : mapGet st.rooms roomCode = some room)
    (hgu : mapGet st.userSockets sid = some user) :
    mapGet (stepState st (InEvent.addToRoomPlaylist sid roomCode songs)).rooms roomCode
      = some ({ room with playlist := addSongsToPlaylist room.playlist songs }) ∧
    (∀ s : Track, s ∈ addSongsToPlaylist room.playlist songs ↔
      s ∈ room.playlist ∨ (s ∈ songs ∧ ∀ t ∈ room.playlist, t._id ≠ s._id)) ∧
    ((room.playlist.map Track._id).Nodup → (songs.map Track._id).Nodup →
      ((addSongsToPlaylist room.playlist songs).map Track._id).Nodup) := by
  refine ⟨?_, ?_, ?_⟩
  · rw [stepState, step_addToPlaylist st sid roomCode songs room user hgr hgu]
    exact mapGet_mapSet_self _ _ _
  · intro s
    unfold addSongsToPlaylist
    rw [List.mem_append, List.mem_filter]
    constructor
    · rintro (h | ⟨hs, hpred⟩)
      · exact Or.inl h
      · refine Or.inr ⟨hs, fun t ht heq => ?_⟩
        simp at hpred
        exact hpred t ht heq
    · rintro (h | ⟨hs, hall⟩)
      · exact Or.inl h
      · refine Or.inr ⟨hs, ?_⟩
        simp
        intro t ht
        exact hall t ht
  · intro h1 h2
    unfold addSongsToPlaylist
    rw [List.map_append]
    refine List.Nodup.append h1 ?_ ?_
    · exact List.Nodup.sublist (List.Sublist.map _ (List.filter_sublist _)) h2
    · rw [List.disjoint_left]
      intro a ha hb
      rw [List.mem_map] at ha hb
      obtain ⟨t, ht, hta⟩ := ha
      obtain ⟨u, hu, hua⟩ := hb
      rw [List.mem_filter] at hu
      have hu2 := hu.2
      simp at hu2
      exact hu2 t ht (hta.trans hua.symm)

/-- Closed witness for C3 (amended): adding a fresh-id track to a one-track playlist
keeps the ids duplicate-free. -/
theorem C3_playlist_add_amended_witness :
    ((addSongsToPlaylist [Track.mk "b" "y"] [Track.mk "a" "x"]).map Track._id).Nodup :=
  (C3_playlist_add_amended
    (stepState initialState
      (InEvent.createRoom "s1" none none (some [Track.mk "b" "y"]) [drawA]))
    "s1" "AAAAAA" [Track.mk "a" "x"]
    (createdRoom "s1" none none (some [Track.mk "b" "y"]) "AAAAAA")
    { roomCode := "AAAAAA", id := "s1", displayName := "Host", isHost := true }
    rfl rfl).2.2 (by decide) (by decide)

/-- C4 counterexample: "s2" creates room "AAAAAA" (its host), "s1" creates room
"BBBBBB".  "s1" — host of a *different* room — sends `update-room-settings`
addressed to "AAAAAA": the update succeeds (settings change, a
`room-settings-updated` is emitted, no Unauthorized error) although the requester
is not the hostId of the addressed room.  The handler checks only the requester's
own session `isHost` flag, never `requesterId == hostId` of the addressed room. -/
theorem C4_settings_auth_counterexample :
    ((mapGet (runEvents initialState
        [InEvent.createRoom "s2" none none none [drawA],
         InEvent.createRoom "s1" none none none [drawB],
         InEvent.updateRoomSettings "s1" "AAAAAA"
           { playbackMode := none, syncControl := some "anyone" }]).rooms "AAAAAA").map
        (fun r => (r.hostId, r.settings.syncControl))
      = some ("s2", "anyone")) ∧
    (stepEmits (runEvents initialState
        [InEvent.createRoom "s2" none none none [drawA],
         InEvent.createRoom "s1" none none none [drawB]])
        (InEvent.updateRoomSettings "s1" "AAAAAA"
          { playbackMode := none, syncControl := some "anyone" })
      = [Emit.roomSettingsUpdated "AAAAAA"
          { playbackMode := "individual", syncControl := "anyone" }]) ∧
    ("s1" : String) ≠ "s2" := by
  refine ⟨by decide, by decide, by decide⟩

/-- C4 (amended): an `update-room-settings` succeeds exactly when the addressed room
exists, the sender has a session binding, and that binding's `isHost` flag is set
(regardless of whether the sender is the hostId of the *addressed* room); in every
failing case the state — in particular the room's settings — is unchanged and the
sender alone receives the Unauthorized error event. -/
theorem C4_settings_update_amended (st : ServerState) (sid roomCode : String)
    (patch : SettingsPatch) :
    (∀ (room : Room) (user : SessionData), mapGet st.rooms roomCode = some room →
      mapGet st.userSockets sid = some user → user.isHost = true →
      stepState st (InEvent.updateRoomSettings sid roomCode patch) =
        { st with rooms :=
            mapSet st.rooms roomCode ({ room with settings := mergeSettings room.settings patch }) } ∧
      stepEmits st (InEvent.updateRoomSettings sid roomCode patch)
        = [Emit.roomSettingsUpdated roomCode (mergeSettings room.settings patch)]) ∧
    (∀ (room : Room) (user : SessionData), mapGet st.rooms roomCode = some room →
      mapGet st.userSockets sid = some user → user.isHost = false →
      stepState st (InEvent.updateRoomSettings sid roomCode patch) = st ∧
      stepEmits st (InEvent.updateRoomSettings sid roomCode patch)
        = [Emit.errorMsg sid "Unauthorized to update room settings"] ∧
      audienceOf (Emit.errorMsg sid "Unauthorized to update room settings")
        = Audience.sender sid) ∧
    (mapGet st.rooms roomCode = none →
      stepState st (InEvent.updateRoomSettings sid roomCode patch) = st ∧
      stepEmits st (InEvent.updateRoomSettings sid roomCode patch)
        = [Emit.errorMsg sid "Unauthorized to update room settings"]) ∧
    (mapGet st.userSockets sid = none →
      stepState st (InEvent.updateRoomSettings sid roomCode patch) = st ∧
      stepEmits st (InEvent.updateRoomSettings sid roomCode patch)
        = [Emit.errorMsg sid "Unauthorized to update room settings"]) := by
  refine ⟨?_, ?_, ?_, ?_⟩
  · intro room user hgr hgu hh
    have heq := step_updateSettings_host st sid roomCode patch room user hgr hgu hh
    exact ⟨by rw [stepState, heq], by rw [stepEmits, heq]⟩
  · intro room user hgr hgu hh
    have heq := step_updateSettings_nonhost st sid roomCode patch room user hgr hgu hh
    exact ⟨by rw [stepState, heq], by rw [stepEmits, heq], rfl⟩
  · intro hgr
    have heq := step_updateSettings_noRoom st sid roomCode patch hgr
    exact ⟨by rw [stepState, heq], by rw [stepEmits, heq]⟩
  · intro hgu
    have heq := step_updateSettings_noUser st sid roomCode patch hgu
    exact ⟨by rw [stepState, heq], by rw [stepEmits, heq]⟩

/-- Closed witness for C4 (amended): a plain joiner's settings update is rejected
with the Unauthorized error and the state is unchanged. -/
theorem C4_settings_update_amended_witness :
    stepEmits (runEvents initialState
        [InEvent.createRoom "s1" none none none [drawA],
         InEvent.joinRoom "s2" "AAAAAA" (some "Sam")])
      (InEvent.updateRoomSettings "s2" "AAAAAA"
        { playbackMode := some "sync", syncControl := none })
      = [Emit.errorMsg "s2" "Unauthorized to update room settings"] :=
  (((C4_settings_update_amended (runEvents initialState
      [InEvent.createRoom "s1" none none none [drawA],
       InEvent.joinRoom "s2" "AAAAAA" (some "Sam")])
    "s2" "AAAAAA" { playbackMode := some "sync", syncControl := none }).2.1
    _ _ rfl rfl rfl).2).1

/-- C5 counterexample: "s1" creates "AAAAAA" and then — without disconnecting —
creates "BBBBBB".  The session binding is rebound from "AAAAAA" to "BBBBBB" while
the connection lives, and "s1" is simultaneously present in the participants maps of
both live rooms, contradicting both halves of the claim. -/
theorem C5_single_membership_counterexample :
    ((mapGet (stepState initialState
        (InEvent.createRoom "s1" none none none [drawA])).userSockets "s1").map
        SessionData.roomCode = some "AAAAAA") ∧
    ((mapGet (runEvents initialState
        [InEvent.createRoom "s1" none none none [drawA],
         InEvent.createRoom "s1" none none none [drawB]]).userSockets "s1").map
        SessionData.roomCode = some "BBBBBB") ∧
    ((mapGet (runEvents initialState
        [InEvent.createRoom "s1" none none none [drawA],
         InEvent.createRoom "s1" none none none [drawB]]).rooms "AAAAAA").map
        (fun r => (mapGet r.participants "s1").isSome) = some true) ∧
    ((mapGet (runEvents initialState
        [InEvent.createRoom "s1" none none none [drawA],
         InEvent.createRoom "s1" none none none [drawB]]).rooms "BBBBBB").map
        (fun r => (mapGet r.participants "s1").isSome) = some true) ∧
    ("AAAAAA" : String) ≠ "BBBBBB" := by
  refine ⟨by decide, by decide, by decide, by decide, by decide⟩

/-- C5 (amended): a session binding is *destroyed* only by disconnect — every other
event leaves a bound connection bound — and disconnect does unbind it; but the
binding can be *rebound* to a different room by a later create/join while the
connection lives, leaving the old membership in place, so a reachable state can hold
the same participant id in the participants maps of two distinct live rooms. -/
theorem C5_session_binding_amended (st : ServerState) (e : InEvent) (sid : String)
    (hst : Reachable st) :
    ((∀ s, e ≠ InEvent.disconnect s) → (mapGet st.userSockets sid).isSome = true →
      (mapGet (stepState st e).userSockets sid).isSome = true) ∧
    mapGet (stepState st (InEvent.disconnect sid)).userSockets sid = none ∧
    (∃ st' : ServerState, Reachable st' ∧ ∃ (c1 c2 : String) (r1 r2 : Room) (p : String),
      c1 ≠ c2 ∧ mapGet st'.rooms c1 = some r1 ∧ mapGet st'.rooms c2 = some r2 ∧
      (mapGet r1.participants p).isSome = true ∧ (mapGet r2.participants p).isSome = true) := by
  refine ⟨fun hne hb => userSockets_step_nondisconnect st e sid hne hb, ?_, ?_⟩
  · exact userSockets_disconnect_unbinds st sid (inv_reachable st hst).2.2.1
  · refine ⟨runEvents initialState
        [InEvent.createRoom "s1" none none none [drawA],
         InEvent.createRoom "s1" none none none [drawB]],
      Reachable.step _ _ (Reachable.step _ _ Reachable.init),
      "AAAAAA", "BBBBBB", createdRoom "s1" none none none "AAAAAA",
      createdRoom "s1" none none none "BBBBBB", "s1",
      by decide, by decide, by decide, by decide, by decide⟩

/-- Closed witness for C5 (amended): after its creator's disconnect, the session
binding for "s1" is gone. -/
theorem C5_session_binding_amended_witness :
    mapGet (stepState (stepState initialState
        (InEvent.createRoom "s1" none none none [drawA]))
      (InEvent.disconnect "s1")).userSockets "s1" = none :=
  (C5_session_binding_amended
    (stepState initialState (InEvent.createRoom "s1" none none none [drawA]))
    (InEvent.disconnect "s1") "s1" (Reachable.step _ _ Reachable.init)).2.1

/-- C9 counterexample: a `create-room` with no description yields a room whose
`description` is the empty string — the handler's default is `description || ''`,
so the description is *not* a non-empty display string after defaults. -/
theorem C9_description_empty_counterexample :
    (mapGet (stepState initialState
        (InEvent.createRoom "s1" none none none [drawA])).rooms "AAAAAA").map
      (fun r => (r.name, r.description)) = some ("Music Room", "") := by
  decide

/-- C9 (amended): after creation defaults, the room's `name` is never empty (a
missing or empty name falls back to "Music Room"), but the `description` defaults to
the *empty* string when missing or empty. -/
theorem C9_room_defaults_amended (st : ServerState) (sid : String)
    (name description : Option String) (initialPlaylist : Option (List Track))
    (attempts : List (Fin 6 → Fin 36)) (code : String)
    (hgen : generateRoomCode attempts st.roomCodes = some code) :
    mapGet (stepState st (InEvent.createRoom sid name description initialPlaylist
        attempts)).rooms code
      = some (createdRoom sid name description initialPlaylist code) ∧
    (createdRoom sid name description initialPlaylist code).name = jsOr name "Music Room" ∧
    (createdRoom sid name description initialPlaylist code).name ≠ "" ∧
    (createdRoom sid name description initialPlaylist code).description
      = jsOr description "" := by
  refine ⟨?_, rfl, ?_, rfl⟩
  · rw [stepState, step_createRoom st sid name description initialPlaylist attempts code hgen]
    exact mapGet_mapSet_self _ _ _
  · show jsOr name "Music Room" ≠ ""
    unfold jsOr
    cases name with
    | none => decide
    | some str =>
      show (if str = "" then "Music Room" else str) ≠ ""
      by_cases hs : str = ""
      · rw [if_pos hs]
        decide
      · rw [if_neg hs]
        exact hs

/-- Closed witness for C9 (amended): creating with explicitly empty name and
description registers a room named "Music Room" with empty description. -/
theorem C9_room_defaults_amended_witness :
    mapGet (stepState initialState (InEvent.createRoom "s1" (some "") (some "") none
        [drawA])).rooms "AAAAAA"
      = some (createdRoom "s1" (some "") (some "") none "AAAAAA") :=
  (C9_room_defaults_amended initialState "s1" (some "") (some "") none [drawA] "AAAAAA"
    (by decide)).1

/-- The settings typing the spec asserts: `playbackMode` in {individual, sync} and
`syncControl` in {host-only, anyone}. -/
def validSettings (s : Settings) : Prop :=
  (s.playbackMode = "individual" ∨ s.playbackMode = "sync") ∧
  (s.syncControl = "host-only" ∨ s.syncControl = "anyone")

instance (s : Settings) : Decidable (validSettings s) := by
  unfold validSettings
  infer_instance

/-- A settings patch whose present fields carry only values of the spec's settings
typing. -/
def validPatch (p : SettingsPatch) : Prop :=
  (∀ v, p.playbackMode = some v → v = "individual" ∨ v = "sync") ∧
  (∀ v, p.syncControl = some v → v = "host-only" ∨ v = "anyone")

/-- C10 counterexample: the host merges the arbitrary client patch
`{playbackMode: "turbo"}` and the room's settings become untyped — the shallow
merge performs no validation, so a reachable state violates the settings typing. -/
theorem C10_settings_typing_counterexample :
    ((mapGet (runEvents initialState
        [InEvent.createRoom "s1" none none none [drawA],
         InEvent.updateRoomSettings "s1" "AAAAAA"
           { playbackMode := some "turbo", syncControl := none }]).rooms "AAAAAA").map
        Room.settings
      = some { playbackMode := "turbo", syncControl := "host-only" }) ∧
    ¬ validSettings { playbackMode := "turbo", syncControl := "host-only" } := by
  refine ⟨by decide, by decide⟩

/-- C10 (amended): rooms are created with the valid default settings
`{individual, host-only}`, and the shallow merge of a settings patch preserves the
settings typing exactly when every field the patch carries is itself a value of
that typing — an arbitrary (invalid) patch value is stored unvalidated. -/
theorem C10_settings_typing_amended (st : ServerState) (sid : String)
    (name description : Option String) (initialPlaylist : Option (List Track))
    (attempts : List (Fin 6 → Fin 36)) (code : String)
    (hgen : generateRoomCode attempts st.roomCodes = some code) :
    ((createdRoom sid name description initialPlaylist code).settings
      = { playbackMode := "individual", syncControl := "host-only" }) ∧
    validSettings (createdRoom sid name description initialPlaylist code).settings ∧
    mapGet (stepState st (InEvent.createRoom sid name description initialPlaylist
        attempts)).rooms code
      = some (createdRoom sid name description initialPlaylist code) ∧
    (∀ (s : Settings) (p : SettingsPatch), validSettings s → validPatch p →
      validSettings (mergeSettings s p)) := by
  refine ⟨rfl, ⟨Or.inl rfl, Or.inl rfl⟩, ?_, ?_⟩
  · rw [stepState, step_createRoom st sid name description initialPlaylist attempts code hgen]
    exact mapGet_mapSet_self _ _ _
  · intro s p hs hp
    constructor
    · cases hpm : p.playbackMode with
      | none => simpa [mergeSettings, hpm] using hs.1
      | some v => simpa [mergeSettings, hpm] using hp.1 v hpm
    · cases hsc : p.syncControl with
      | none => simpa [mergeSettings, hsc] using hs.2
      | some v => simpa [mergeSettings, hsc] using hp.2 v hsc

/-- Closed witness for C10 (amended): a freshly created room is well typed, and a
well-typed patch keeps it well typed. -/
theorem C10_settings_typing_amended_witness :
    validSettings (createdRoom "s1" none none none "AAAAAA").settings ∧
    validSettings (mergeSettings { playbackMode := "individual", syncControl := "host-only" }
      { playbackMode := some "sync", syncControl := none }) :=
  ⟨(C10_settings_typing_amended initialState "s1" none none none [drawA] "AAAAAA"
      (by decide)).2.1,
   (C10_settings_typing_amended initialState "s1" none none none [drawA] "AAAAAA"
      (by decide)).2.2.2 _ _ (by decide) ⟨fun v hv => by simp at hv; exact Or.inr hv.symm,
        fun v hv => by simp at hv⟩⟩

end GrooveBox
